import Mathlib

/-!
Verification of the session coordination and host-migration core of the
Ultimate Omaha multiplayer system (multiplayer.js), via a shallow embedding
of its data model and handlers.  JavaScript Maps are embedded as insertion
ordered association lists, timestamps as integers (Date.now arithmetic),
and the sessionStorage cell as an optional stored value.
-/

namespace UltimateOmaha

abbrev PlayerId := String

/-- A JavaScript Map with string keys, as an insertion ordered association
list (keys are kept unique by the set and delete operations below, exactly
as a JS Map does). -/
abbrev JsMap (α : Type) : Type := List (PlayerId × α)

/-- Map.get: value at the first matching key. -/
def mapGet {α : Type} : JsMap α → PlayerId → Option α
  | [], _ => none
  | e :: rest, k => if e.1 = k then some e.2 else mapGet rest k

/-- Map.has. -/
def mapHas {α : Type} (m : JsMap α) (k : PlayerId) : Bool :=
  (mapGet m k).isSome

/-- Map.set: replace in place when the key is present, else append,
matching JS Map insertion order semantics. -/
def mapSet {α : Type} : JsMap α → PlayerId → α → JsMap α
  | [], k, v => [(k, v)]
  | e :: rest, k, v => if e.1 = k then (k, v) :: rest else e :: mapSet rest k v

/-- Map.delete. -/
def mapDelete {α : Type} : JsMap α → PlayerId → JsMap α
  | [], _ => []
  | e :: rest, k => if e.1 = k then mapDelete rest k else e :: mapDelete rest k

/-- Map.size. -/
def mapSize {α : Type} (m : JsMap α) : Nat := m.length

/-- Array.from(map.values()). -/
def mapValues {α : Type} (m : JsMap α) : List α := m.map Prod.snd

/-- Array.from(map.keys()). -/
def mapKeys {α : Type} (m : JsMap α) : List PlayerId := m.map Prod.fst

/-- The JS expression a || b on an optional string a: an absent or empty
string falls through to the default. -/
def jsOrString : Option String → String → String
  | some s, b => if s = "" then b else s
  | none, b => b

/-- Entry of the players map: {id, name, isHost, queued}. -/
structure PlayerInfo where
  id : PlayerId
  name : String
  isHost : Bool
  queued : Bool
deriving DecidableEq

/-- Entry of disconnectedPlayers: the spread player info plus the
disconnectedAt timestamp. -/
structure DisconnectedInfo where
  info : PlayerInfo
  disconnectedAt : Int
deriving DecidableEq

/-- A card as seen in a replicated snapshot: either a real card or the
face down placeholder object produced by the filter. -/
inductive CardView where
  | card (rank : Nat) (suit : Nat)
  | faceDown
deriving DecidableEq

/-- A player inside a game state snapshot, with the fields produced by
getGameState in game.js (representative subset plus the holeCards the
filter acts on). -/
structure GPlayer where
  id : PlayerId
  pnl : Int
  currentBet : Int
  hasActed : Bool
  holeCards : List CardView
deriving DecidableEq

/-- The replicated game state snapshot. -/
structure GameState where
  phase : String
  baseBet : Int
  players : List GPlayer
  totalPot : Int
deriving DecidableEq

/-- filterStateForPlayer (multiplayer.js lines 731 to 742): spread copy of
the snapshot whose players array maps every other player, in a non results
phase, to a copy whose hole cards are face down placeholders. -/
def filterStateForPlayer (gameState : GameState) (playerId : PlayerId) : GameState :=
  { gameState with
    players := gameState.players.map (fun p =>
      if p.id ≠ playerId ∧ gameState.phase ≠ "results" then
        { p with holeCards := p.holeCards.map (fun _ => CardView.faceDown) }
      else p) }

/-- The persisted session record (saveSession, lines 40 to 51). -/
structure Session where
  peerId : PlayerId
  roomCode : String
  playerName : String
  isHost : Bool
  gameInProgress : Bool
  timestamp : Int
deriving DecidableEq

/-- Content of the sessionStorage cell: either a string that parses to a
session record, or a string JSON.parse rejects. -/
inductive StoredSession where
  | valid (s : Session)
  | malformed (raw : String)
deriving DecidableEq

/-- loadSession (lines 56 to 72) as a pure function of the storage cell
and the current time; returns the result and the storage cell afterwards.
An absent cell returns null leaving storage empty; an expired or
unparseable record is cleared and null is returned. -/
def loadSession : Option StoredSession → Int → Option Session × Option StoredSession
  | none, _ => (none, none)
  | some (StoredSession.valid s), now =>
      if now - s.timestamp > 60 * 60 * 1000 then (none, none)
      else (some s, some (StoredSession.valid s))
  | some (StoredSession.malformed _), _ => (none, none)

/-- The typed protocol messages this core emits (section 6 of the design;
the literal type strings of multiplayer.js are join_accepted, player_list,
player_joined, player_reconnected, player_disconnected, player_left,
error, new_host_announcement, game_state, full_game_state_backup). -/
inductive Msg where
  | joinAccepted (playerId : PlayerId) (roomCode : String)
      (gameInProgress : Bool) (reconnected : Bool)
  | playerList (players : List PlayerInfo) (playerOrder : List PlayerId)
  | playerJoined (player : PlayerInfo) (playerOrder : List PlayerId)
  | playerReconnected (player : PlayerInfo)
  | playerDisconnected (playerId : PlayerId) (mayReconnect : Bool)
  | playerLeft (playerId : PlayerId)
  | errorMsg (message : String)
  | newHostAnnouncement (newHostId : PlayerId) (roomCode : String)
      (gameState : Option GameState) (playerOrder : List PlayerId)
  | gameStateMsg (state : GameState)
  | fullBackup (state : GameState) (playerOrder : List PlayerId)
deriving DecidableEq

/-- Observable effects of a handler: a message sent over an open
connection, or one of the callbacks into the application layer. -/
inductive Effect where
  | send (target : PlayerId) (m : Msg)
  | hookPlayerJoin (players : List PlayerInfo)
  | hookPlayerLeave (id : PlayerId) (mayReconnect : Bool)
  | hookReconnected (id : PlayerId)
  | hookBecomeHost (gs : Option GameState)
  | hookGameStateUpdate (st : GameState)
  | hookError (message : String)
  | hookJoinIntent (fromId : PlayerId) (name : Option String)
deriving DecidableEq

/-- Payload of an inbound join message: {name, peerId, reconnecting,
gameStateBackup?, playerOrder?}. -/
structure JoinMsg where
  name : Option String
  reconnecting : Bool
  gameStateBackup : Option GameState
  playerOrder : Option (List PlayerId)
deriving DecidableEq

/-- Payload of new_host_announcement. -/
structure NewHostMsg where
  newHostId : PlayerId
  roomCode : String
  gameState : Option GameState
  playerOrder : Option (List PlayerId)
deriving DecidableEq

/-- The mutable fields of MultiplayerManager that the coordination
protocol reads and writes.  connections holds the ids with a currently
open connection; session is the sessionStorage cell. -/
structure MPState where
  connections : List PlayerId
  players : JsMap PlayerInfo
  isHost : Bool
  hostId : Option PlayerId
  myId : PlayerId
  myName : String
  roomCode : String
  disconnectedPlayers : JsMap DisconnectedInfo
  lastFullGameState : Option GameState
  playerOrder : List PlayerId
  gameInProgress : Bool
  session : Option StoredSession
deriving DecidableEq

/-- saveSession (lines 40 to 51): overwrite the sessionStorage cell with
the current identity. -/
def saveSession (s : MPState) (now : Int) : MPState :=
  { s with session := some (StoredSession.valid
      { peerId := s.myId, roomCode := s.roomCode, playerName := s.myName,
        isHost := s.isHost, gameInProgress := s.gameInProgress,
        timestamp := now }) }

/-- sendToPeer (lines 670 to 675): send only when the connection is open. -/
def sendToPeer (s : MPState) (peerId : PlayerId) (m : Msg) : List Effect :=
  if peerId ∈ s.connections then [Effect.send peerId m] else []

/-- broadcast (lines 689 to 695): send to every open connection except
the excluded id. -/
def broadcast (s : MPState) (m : Msg) (excludePeerId : Option PlayerId) :
    List Effect :=
  (s.connections.filter (fun p => decide (some p ≠ excludePeerId))).map
    (fun p => Effect.send p m)

/-- One push of the host first merge loop. -/
def mergeStep (myId : PlayerId) (acc : List PlayerId) (id : PlayerId) :
    List PlayerId :=
  if id ≠ myId ∧ id ∉ acc then acc ++ [id] else acc

/-- The host first merge of a reconnecting client playerOrder
(handleJoinRequest lines 471 to 478): start from [myId], push each id of
the client order that is neither the host nor already present. -/
def mergeHostFirst (myId : PlayerId) (clientOrder : List PlayerId) :
    List PlayerId :=
  clientOrder.foldl (mergeStep myId) [myId]

/-- registerHost: the host path of initPeer (lines 205 to 221) followed by
saveSession; the host player record carries no queued field (undefined,
hence false). -/
def registerHost (myId myName roomCode : String) (now : Int) : MPState :=
  saveSession
    { connections := [],
      players := [(myId, { id := myId, name := myName, isHost := true,
                           queued := false })],
      isHost := true, hostId := some myId, myId := myId, myName := myName,
      roomCode := roomCode, disconnectedPlayers := [],
      lastFullGameState := none, playerOrder := [myId],
      gameInProgress := false, session := none } now

/-- handleJoinRequest lines 464 to 485: a reconnecting client carrying a
backup, received by a host with no snapshot of its own, has its backup
adopted, gameInProgress forced, and a non empty client playerOrder merged
host first; the become host hook fires with the adopted snapshot. -/
def adoptBackup (s : MPState) (data : JoinMsg) : MPState × List Effect :=
  match data.reconnecting, data.gameStateBackup, s.lastFullGameState with
  | true, some backup, none =>
      let s1 := { s with lastFullGameState := some backup,
                         gameInProgress := true }
      let s2 :=
        match data.playerOrder with
        | some po =>
            if po.length > 0 then
              { s1 with playerOrder := mergeHostFirst s1.myId po }
            else s1
        | none => s1
      (s2, [Effect.hookBecomeHost (some backup)])
  | _, _, _ => (s, [])

/-- The restored player name (line 497): data.name, else the cached name,
else the literal Player, with empty strings falling through as in JS. -/
def restoredName (s : MPState) (fromPeerId : PlayerId) (data : JoinMsg) :
    String :=
  jsOrString data.name
    (jsOrString
      ((mapGet s.disconnectedPlayers fromPeerId).map (fun o => o.info.name))
      "Player")

/-- The player record written back by the restoration path
(lines 495 to 501): queued is cleared. -/
def restoredInfo (s : MPState) (fromPeerId : PlayerId) (data : JoinMsg) :
    PlayerInfo :=
  { id := fromPeerId, name := restoredName s fromPeerId data,
    isHost := false, queued := false }

/-- handleJoinRequest lines 490 to 542: the restoration path. -/
def restoreJoin (s : MPState) (fromPeerId : PlayerId) (data : JoinMsg) :
    MPState × List Effect :=
  let playerInfo := restoredInfo s fromPeerId data
  let s1 := { s with
    disconnectedPlayers := mapDelete s.disconnectedPlayers fromPeerId,
    players := mapSet s.players fromPeerId playerInfo }
  let s2 := if fromPeerId ∈ s1.playerOrder then s1
            else { s1 with playerOrder := s1.playerOrder ++ [fromPeerId] }
  (s2,
    sendToPeer s2 fromPeerId
      (Msg.joinAccepted fromPeerId s2.roomCode s2.gameInProgress true)
    ++ sendToPeer s2 fromPeerId
      (Msg.playerList (mapValues s2.players) s2.playerOrder)
    ++ broadcast s2 (Msg.playerReconnected playerInfo) (some fromPeerId)
    ++ [Effect.hookPlayerJoin (mapValues s2.players),
        Effect.hookReconnected fromPeerId])

/-- The admitted player record (lines 557 to 562): queued while a game is
in progress. -/
def admittedInfo (s : MPState) (fromPeerId : PlayerId) (data : JoinMsg) :
    PlayerInfo :=
  { id := fromPeerId, name := jsOrString data.name "Player",
    isHost := false, queued := s.gameInProgress }

/-- handleJoinRequest lines 553 to 603: the fresh admission path. -/
def admitJoin (s : MPState) (fromPeerId : PlayerId) (data : JoinMsg) :
    MPState × List Effect :=
  let isQueued := s.gameInProgress
  let playerInfo := admittedInfo s fromPeerId data
  let s1 := { s with players := mapSet s.players fromPeerId playerInfo }
  let s2 := if fromPeerId ∈ s1.playerOrder then s1
            else { s1 with playerOrder := s1.playerOrder ++ [fromPeerId] }
  (s2,
    sendToPeer s2 fromPeerId
      (Msg.joinAccepted fromPeerId s2.roomCode isQueued false)
    ++ sendToPeer s2 fromPeerId
      (Msg.playerList (mapValues s2.players) s2.playerOrder)
    ++ broadcast s2 (Msg.playerJoined playerInfo s2.playerOrder)
      (some fromPeerId)
    ++ [Effect.hookPlayerJoin (mapValues s2.players)]
    ++ (if isQueued then [Effect.hookJoinIntent fromPeerId data.name]
        else []))

/-- handleJoinRequest (lines 460 to 604): backup adoption, then the
three way branch on restoration, room capacity, and fresh admission.
Restoration triggers on the reconnecting flag or on presence in the
disconnected cache. -/
def handleJoinRequest (s : MPState) (fromPeerId : PlayerId)
    (data : JoinMsg) : MPState × List Effect :=
  let a := adoptBackup s data
  let s1 := a.1
  if data.reconnecting || mapHas s1.disconnectedPlayers fromPeerId then
    let r := restoreJoin s1 fromPeerId data
    (r.1, a.2 ++ r.2)
  else if 10 ≤ mapSize s1.players then
    (s1, a.2 ++ sendToPeer s1 fromPeerId
      (Msg.errorMsg "Room is full (max 10 players)"))
  else
    let r := admitJoin s1 fromPeerId data
    (r.1, a.2 ++ r.2)

/-- handleDisconnection (lines 632 to 665): cache the player with a
timestamp, purge cache entries older than five minutes, drop the
connection and the active record, then notify everyone. -/
def handleDisconnection (s : MPState) (peerId : PlayerId) (now : Int) :
    MPState × List Effect :=
  let s1 :=
    match mapGet s.players peerId with
    | some playerInfo =>
        let cached := mapSet s.disconnectedPlayers peerId
          { info := playerInfo, disconnectedAt := now }
        { s with disconnectedPlayers :=
            cached.filter (fun e =>
              decide (now - e.2.disconnectedAt ≤ 5 * 60 * 1000)) }
    | none => s
  let s2 := { s1 with
    connections := s1.connections.filter (fun p => decide (p ≠ peerId)),
    players := mapDelete s1.players peerId }
  (s2,
    broadcast s2 (Msg.playerDisconnected peerId true) none
    ++ [Effect.hookPlayerLeave peerId true])

/-- The player_left receive case of handleMessage (lines 381 to 386). -/
def handlePlayerLeft (s : MPState) (playerId : PlayerId) :
    MPState × List Effect :=
  ({ s with players := mapDelete s.players playerId },
   [Effect.hookPlayerLeave playerId false])

/-- leave (lines 765 to 794): clear the session, a leaving host
broadcasts an error notice, every connection is closed and the local
maps are emptied; playerOrder is left as it was. -/
def leave (s : MPState) : MPState × List Effect :=
  let effs := if s.isHost then
    broadcast s (Msg.errorMsg "Host has left the game") none else []
  ({ s with session := none, connections := [], players := [],
            disconnectedPlayers := [] }, effs)

/-- The outcome of initiateHostMigration. -/
inductive MigrationAction where
  | becomeHostAction
  | waitForNewHost (newHostId : PlayerId)
  | errorNoPlayers (message : String)
deriving DecidableEq

/-- initiateHostMigration (lines 922 to 946): elect the first id of
playerOrder that is not the lost host and is still a known player. -/
def initiateHostMigration (s : MPState) : MigrationAction :=
  let eligiblePlayers := s.playerOrder.filter
    (fun id => decide (some id ≠ s.hostId) && mapHas s.players id)
  match eligiblePlayers with
  | [] =>
      MigrationAction.errorNoPlayers
        "Host left and no other players available"
  | newHostId :: _ =>
      if newHostId = s.myId then MigrationAction.becomeHostAction
      else MigrationAction.waitForNewHost newHostId

/-- The pure election function: first id of the order that differs from
the lost host and is still in the players map. -/
def migrationLeader (playerOrder : List PlayerId)
    (players : JsMap PlayerInfo) (hostId : Option PlayerId) :
    Option PlayerId :=
  (playerOrder.filter
    (fun id => decide (some id ≠ hostId) && mapHas players id)).head?

/-- becomeNewHost (lines 951 to 1015): flip the local role, mark self as
host in the registry, persist the session, and announce to every other
known player over a fresh connection; playerOrder is not modified. -/
def becomeNewHost (s : MPState) (now : Int) : MPState × List Effect :=
  let s1 := { s with isHost := true, hostId := some s.myId }
  let s2 :=
    match mapGet s1.players s1.myId with
    | some myInfo =>
        { s1 with players :=
            mapSet s1.players s1.myId { myInfo with isHost := true } }
    | none => s1
  let s3 := saveSession s2 now
  let otherPlayers :=
    (mapKeys s3.players).filter (fun id => decide (id ≠ s3.myId))
  let newConns := otherPlayers.foldl
    (fun cs p => if p ∈ cs then cs else cs ++ [p]) s3.connections
  let s4 := { s3 with connections := newConns }
  (s4,
    otherPlayers.map (fun peerId =>
      Effect.send peerId (Msg.newHostAnnouncement s3.myId s3.roomCode
        s3.lastFullGameState s3.playerOrder))
    ++ [Effect.hookBecomeHost s3.lastFullGameState])

/-- handleNewHostAnnouncement (lines 1020 to 1058): adopt the announced
host, drop the local host role, take over the announced snapshot and
order when present, remark isHost across the registry, and persist. -/
def handleNewHostAnnouncement (s : MPState) (data : NewHostMsg)
    (now : Int) : MPState × List Effect :=
  let s1 := { s with hostId := some data.newHostId, isHost := false }
  let gsStep :=
    match data.gameState with
    | some gs =>
        ({ s1 with lastFullGameState := some gs },
         [Effect.hookGameStateUpdate (filterStateForPlayer gs s1.myId)])
    | none => (s1, ([] : List Effect))
  let s2 := gsStep.1
  let s3 :=
    match data.playerOrder with
    | some po => { s2 with playerOrder := po }
    | none => s2
  let s4 := { s3 with players := s3.players.map (fun e =>
    (e.1, { e.2 with isHost := decide (e.1 = data.newHostId) })) }
  let s5 := saveSession s4 now
  (s5, gsStep.2 ++ [Effect.hookPlayerJoin (mapValues s4.players)])

/-- True on an effect that sends a player_reconnected message. -/
def isPlayerReconnectedMsg : Effect → Bool
  | Effect.send _ (Msg.playerReconnected _) => true
  | _ => false

/-- True on an effect that sends a player_joined message. -/
def isPlayerJoinedMsg : Effect → Bool
  | Effect.send _ (Msg.playerJoined _ _) => true
  | _ => false

/-- True on an effect that sends a player_left message. -/
def isPlayerLeftMsg : Effect → Bool
  | Effect.send _ (Msg.playerLeft _) => true
  | _ => false

/-- Invariant: the playerOrder carries the current host at its head once
a host id is assigned. -/
def hostAtHead (s : MPState) : Bool :=
  match s.hostId with
  | none => true
  | some h => decide (s.playerOrder.head? = some h)

/-- Invariant: no id of the active registry also sits in the
disconnected cache. -/
def activeDisjoint (s : MPState) : Bool :=
  s.players.all (fun e => !(mapHas s.disconnectedPlayers e.1))

/-- The core registry invariant: duplicate free playerOrder and
disjointness of active and disconnected sets. -/
def coreInv (s : MPState) : Bool :=
  decide s.playerOrder.Nodup && activeDisjoint s

/-- Demo participant records for concrete runs. -/
def infoH : PlayerInfo :=
  { id := "H", name := "Alice", isHost := true, queued := false }

def infoP1 : PlayerInfo :=
  { id := "P1", name := "Bob", isHost := false, queued := false }

def infoP2 : PlayerInfo :=
  { id := "P2", name := "Carol", isHost := false, queued := false }

/-- A three member room seen from the host. -/
def stateHostBase : MPState :=
  { connections := ["P1", "P2"],
    players := [("H", infoH), ("P1", infoP1), ("P2", infoP2)],
    isHost := true, hostId := some "H", myId := "H", myName := "Alice",
    roomCode := "ABCDE", disconnectedPlayers := [],
    lastFullGameState := none, playerOrder := ["H", "P1", "P2"],
    gameInProgress := false, session := none }

/-- The same room with a fresh joiner P3 already connected. -/
def stateHostJoin : MPState :=
  { stateHostBase with connections := ["P1", "P2", "P3"] }

/-- Host state where P2 disconnected at time 0 and its cache entry was
never purged. -/
def stateStaleCache : MPState :=
  { stateHostBase with
    players := [("H", infoH), ("P1", infoP1)],
    disconnectedPlayers := [("P2", { info := infoP2, disconnectedAt := 0 })] }

/-- The same room seen from client P1. -/
def stateClientP1 : MPState :=
  { connections := [],
    players := [("H", infoH), ("P1", infoP1), ("P2", infoP2)],
    isHost := false, hostId := some "H", myId := "P1", myName := "Bob",
    roomCode := "ABCDE", disconnectedPlayers := [],
    lastFullGameState := none, playerOrder := ["H", "P1", "P2"],
    gameInProgress := false, session := none }

/-- The same room seen from client P2. -/
def stateClientP2 : MPState :=
  { stateClientP1 with myId := "P2", myName := "Carol" }

/-- A plain join payload (no reconnecting flag, no backup). -/
def plainJoin : JoinMsg :=
  { name := some "Dave", reconnecting := false, gameStateBackup := none,
    playerOrder := none }

/-- A demo two player snapshot in a non terminal phase. -/
def gsDemo : GameState :=
  { phase := "preflop", baseBet := 10,
    players :=
      [ { id := "H", pnl := 0, currentBet := 10, hasActed := false,
          holeCards := [CardView.card 14 0, CardView.card 13 1] },
        { id := "P1", pnl := 0, currentBet := 0, hasActed := false,
          holeCards := [CardView.card 2 2, CardView.card 3 3] } ],
    totalPot := 20 }

/-- The announcement P1 sends after winning the election. -/
def annP1 : NewHostMsg :=
  { newHostId := "P1", roomCode := "ABCDE", gameState := none,
    playerOrder := some ["H", "P1", "P2"] }

/-! ## Basic map lemmas -/

theorem mapGet_mapSet_self {α : Type} (m : JsMap α) (k : PlayerId) (v : α) :
    mapGet (mapSet m k v) k = some v := by
  induction m with
  | nil => simp [mapSet, mapGet]
  | cons e rest ih =>
      by_cases h : e.1 = k
      · simp [mapSet, mapGet, h]
      · simp [mapSet, mapGet, h, ih]

theorem mapGet_mapSet_ne {α : Type} (m : JsMap α) (k j : PlayerId) (v : α)
    (h : j ≠ k) : mapGet (mapSet m k v) j = mapGet m j := by
  induction m with
  | nil =>
      show mapGet [(k, v)] j = none
      rw [mapGet, if_neg (Ne.symm h)]
      rfl
  | cons e rest ih =>
      by_cases he : e.1 = k
      · rw [mapSet, if_pos he, mapGet, if_neg (Ne.symm h), mapGet,
            if_neg (by rw [he]; exact Ne.symm h)]
      · by_cases hej : e.1 = j
        · rw [mapSet, if_neg he, mapGet, if_pos hej, mapGet, if_pos hej]
        · rw [mapSet, if_neg he, mapGet, if_neg hej, mapGet, if_neg hej, ih]

theorem mapGet_mapDelete_self {α : Type} (m : JsMap α) (k : PlayerId) :
    mapGet (mapDelete m k) k = none := by
  induction m with
  | nil => rfl
  | cons e rest ih =>
      by_cases h : e.1 = k
      · rw [mapDelete, if_pos h, ih]
      · rw [mapDelete, if_neg h, mapGet, if_neg h, ih]

theorem mapGet_mapDelete_ne {α : Type} (m : JsMap α) (k j : PlayerId)
    (h : j ≠ k) : mapGet (mapDelete m k) j = mapGet m j := by
  induction m with
  | nil => rfl
  | cons e rest ih =>
      by_cases he : e.1 = k
      · rw [mapDelete, if_pos he, ih, mapGet,
            if_neg (by rw [he]; exact Ne.symm h)]
      · by_cases hej : e.1 = j
        · rw [mapDelete, if_neg he, mapGet, if_pos hej, mapGet, if_pos hej]
        · rw [mapDelete, if_neg he, mapGet, if_neg hej, mapGet,
              if_neg hej, ih]

theorem mem_key_of_mapGet {α : Type} (m : JsMap α) (k : PlayerId) (v : α)
    (h : mapGet m k = some v) : (k, v) ∈ m := by
  induction m with
  | nil => simp [mapGet] at h
  | cons e rest ih =>
      obtain ⟨e1, e2⟩ := e
      by_cases he : e1 = k
      · rw [mapGet, if_pos he] at h
        simp only [Option.some.injEq] at h
        rw [← he, ← h]
        exact List.mem_cons_self _ _
      · rw [mapGet, if_neg he] at h
        exact List.mem_cons_of_mem _ (ih h)

theorem mapHas_of_mem {α : Type} (m : JsMap α) (e : PlayerId × α)
    (he : e ∈ m) : mapHas m e.1 = true := by
  induction m with
  | nil => simp at he
  | cons f rest ih =>
      rcases List.mem_cons.mp he with h | h
      · rw [h, mapHas, mapGet, if_pos rfl]
        rfl
      · by_cases hf : f.1 = e.1
        · rw [mapHas, mapGet, if_pos hf]
          rfl
        · rw [mapHas, mapGet, if_neg hf]
          exact ih h

theorem mapHas_exists_mem {α : Type} (m : JsMap α) (k : PlayerId)
    (h : mapHas m k = true) : ∃ e ∈ m, e.1 = k := by
  rw [mapHas, Option.isSome_iff_exists] at h
  obtain ⟨v, hv⟩ := h
  exact ⟨(k, v), mem_key_of_mapGet m k v hv, rfl⟩

theorem mapHas_false_of_get_none {α : Type} (m : JsMap α) (k : PlayerId)
    (h : mapGet m k = none) : mapHas m k = false := by
  rw [mapHas, h]; rfl

theorem mem_mapSet {α : Type} (m : JsMap α) (k : PlayerId) (v : α)
    (e : PlayerId × α) (h : e ∈ mapSet m k v) : e = (k, v) ∨ e ∈ m := by
  induction m with
  | nil => simp [mapSet] at h; left; exact h
  | cons f rest ih =>
      by_cases hf : f.1 = k
      · rw [mapSet, if_pos hf] at h
        rcases List.mem_cons.mp h with h | h
        · left; exact h
        · right; exact List.mem_cons_of_mem _ h
      · rw [mapSet, if_neg hf] at h
        rcases List.mem_cons.mp h with h | h
        · right; rw [h]; exact List.mem_cons_self _ _
        · rcases ih h with h | h
          · left; exact h
          · right; exact List.mem_cons_of_mem _ h

theorem mem_mapDelete {α : Type} (m : JsMap α) (k : PlayerId)
    (e : PlayerId × α) (h : e ∈ mapDelete m k) : e ∈ m ∧ e.1 ≠ k := by
  induction m with
  | nil => simp [mapDelete] at h
  | cons f rest ih =>
      by_cases hf : f.1 = k
      · rw [mapDelete, if_pos hf] at h
        obtain ⟨h1, h2⟩ := ih h
        exact ⟨List.mem_cons_of_mem _ h1, h2⟩
      · rw [mapDelete, if_neg hf] at h
        rcases List.mem_cons.mp h with h | h
        · refine ⟨by rw [h]; exact List.mem_cons_self _ _, ?_⟩
          rw [h]; exact hf
        · obtain ⟨h1, h2⟩ := ih h
          exact ⟨List.mem_cons_of_mem _ h1, h2⟩

theorem mapHas_of_filter {α : Type} (p : PlayerId × α → Bool)
    (m : JsMap α) (k : PlayerId) (h : mapHas (m.filter p) k = true) :
    mapHas m k = true := by
  obtain ⟨e, he, hk⟩ := mapHas_exists_mem _ _ h
  rw [← hk]
  exact mapHas_of_mem m e (List.mem_filter.mp he).1

/-! ## List order lemmas -/

theorem nodup_append_singleton {l : List PlayerId} {x : PlayerId}
    (h : l.Nodup) (hx : x ∉ l) : (l ++ [x]).Nodup := by
  rw [List.nodup_append]
  refine ⟨h, List.nodup_singleton x, ?_⟩
  intro a ha hmem
  rw [List.mem_singleton] at hmem
  rw [hmem] at ha
  exact hx ha

theorem head?_append_singleton {l : List PlayerId} {x : PlayerId}
    (h : l ≠ []) : (l ++ [x]).head? = l.head? := by
  cases l with
  | nil => exact absurd rfl h
  | cons a t => rfl

theorem foldl_mergeStep_extends (myId : PlayerId) (l : List PlayerId) :
    ∀ acc : List PlayerId,
      ∃ rest, l.foldl (mergeStep myId) acc = acc ++ rest := by
  induction l with
  | nil => intro acc; exact ⟨[], by simp⟩
  | cons a t ih =>
      intro acc
      rw [List.foldl_cons]
      by_cases h : a ≠ myId ∧ a ∉ acc
      · rw [mergeStep, if_pos h]
        obtain ⟨r, hr⟩ := ih (acc ++ [a])
        exact ⟨a :: r, by rw [hr]; simp⟩
      · rw [mergeStep, if_neg h]
        exact ih acc

theorem foldl_mergeStep_nodup (myId : PlayerId) (l : List PlayerId) :
    ∀ acc : List PlayerId, acc.Nodup →
      (l.foldl (mergeStep myId) acc).Nodup := by
  induction l with
  | nil => intro acc h; exact h
  | cons a t ih =>
      intro acc h
      rw [List.foldl_cons]
      by_cases hc : a ≠ myId ∧ a ∉ acc
      · rw [mergeStep, if_pos hc]
        exact ih _ (nodup_append_singleton h hc.2)
      · rw [mergeStep, if_neg hc]
        exact ih _ h

theorem mergeHostFirst_nodup (myId : PlayerId) (po : List PlayerId) :
    (mergeHostFirst myId po).Nodup :=
  foldl_mergeStep_nodup myId po [myId] (List.nodup_singleton myId)

theorem mergeHostFirst_head (myId : PlayerId) (po : List PlayerId) :
    (mergeHostFirst myId po).head? = some myId := by
  obtain ⟨rest, hr⟩ := foldl_mergeStep_extends myId po [myId]
  rw [mergeHostFirst, hr]
  rfl

theorem map_const_faceDown (l : List CardView) :
    l.map (fun _ => CardView.faceDown) =
      List.replicate l.length CardView.faceDown := by
  induction l with
  | nil => rfl
  | cons a t ih =>
      rw [List.map_cons, ih, List.length_cons, List.replicate_succ]

/-! ## Election lemmas -/

theorem migration_becomeHost_iff (s : MPState) :
    initiateHostMigration s = MigrationAction.becomeHostAction ↔
      migrationLeader s.playerOrder s.players s.hostId = some s.myId := by
  simp only [initiateHostMigration, migrationLeader]
  cases hl : s.playerOrder.filter
      (fun id => decide (some id ≠ s.hostId) && mapHas s.players id) with
  | nil => simp
  | cons a t =>
      by_cases ha : a = s.myId
      · simp [ha]
      · simp [ha, Ne.symm ha]

theorem migration_wait_iff (s : MPState) (n : PlayerId) (hn : n ≠ s.myId) :
    initiateHostMigration s = MigrationAction.waitForNewHost n ↔
      migrationLeader s.playerOrder s.players s.hostId = some n := by
  simp only [initiateHostMigration, migrationLeader]
  cases hl : s.playerOrder.filter
      (fun id => decide (some id ≠ s.hostId) && mapHas s.players id) with
  | nil => simp
  | cons a t =>
      by_cases ha : a = s.myId
      · simp [ha, Ne.symm hn]
      · simp [ha]

theorem migration_error_iff (s : MPState) :
    initiateHostMigration s =
      MigrationAction.errorNoPlayers
        "Host left and no other players available" ↔
    migrationLeader s.playerOrder s.players s.hostId = none := by
  simp only [initiateHostMigration, migrationLeader]
  cases hl : s.playerOrder.filter
      (fun id => decide (some id ≠ s.hostId) && mapHas s.players id) with
  | nil => simp
  | cons a t =>
      by_cases ha : a = s.myId
      · simp [ha]
      · simp [ha]

/-- Claim C1: on exhausted reconnection the migration leader is the first
id of playerOrder, the lost host excluded, that is still in the players
map; the election is a pure function of the replicated
(playerOrder, players, hostId), so participants sharing that state agree,
at most one of them takes the host role, and when no candidate exists a
terminal error is surfaced with no retry. -/
theorem migration_leader_election (s : MPState) :
    (initiateHostMigration s = MigrationAction.becomeHostAction ↔
      migrationLeader s.playerOrder s.players s.hostId = some s.myId)
    ∧ (∀ n, n ≠ s.myId →
        (initiateHostMigration s = MigrationAction.waitForNewHost n ↔
          migrationLeader s.playerOrder s.players s.hostId = some n))
    ∧ (initiateHostMigration s =
        MigrationAction.errorNoPlayers
          "Host left and no other players available" ↔
      migrationLeader s.playerOrder s.players s.hostId = none)
    ∧ (∀ t : MPState, t.playerOrder = s.playerOrder →
        t.players = s.players → t.hostId = s.hostId → t.myId ≠ s.myId →
        ¬(initiateHostMigration s = MigrationAction.becomeHostAction ∧
          initiateHostMigration t = MigrationAction.becomeHostAction)) := by
  refine ⟨migration_becomeHost_iff s,
    fun n hn => migration_wait_iff s n hn, migration_error_iff s, ?_⟩
  rintro t h1 h2 h3 h4 ⟨hs, ht⟩
  have es := (migration_becomeHost_iff s).mp hs
  have et := (migration_becomeHost_iff t).mp ht
  rw [h1, h2, h3, es] at et
  exact h4 (Option.some.inj et).symm

/-- Witness: in the demo room with JoinOrder [H, P1, P2] and lost host H,
client P1 elects itself. -/
theorem migration_leader_election_witness :
    initiateHostMigration stateClientP1 =
      MigrationAction.becomeHostAction :=
  (migration_leader_election stateClientP1).1.mpr (by decide)

/-! ## New host announcement lemmas -/

theorem hna_isHost (s : MPState) (data : NewHostMsg) (now : Int) :
    (handleNewHostAnnouncement s data now).1.isHost = false := by
  unfold handleNewHostAnnouncement
  cases hg : data.gameState <;> cases hp : data.playerOrder <;>
    simp [saveSession]

theorem hna_hostId (s : MPState) (data : NewHostMsg) (now : Int) :
    (handleNewHostAnnouncement s data now).1.hostId = some data.newHostId := by
  unfold handleNewHostAnnouncement
  cases hg : data.gameState <;> cases hp : data.playerOrder <;>
    simp [saveSession]

theorem hna_playerOrder (s : MPState) (data : NewHostMsg) (now : Int)
    (jo : List PlayerId) (h : data.playerOrder = some jo) :
    (handleNewHostAnnouncement s data now).1.playerOrder = jo := by
  unfold handleNewHostAnnouncement
  cases hg : data.gameState <;> simp [h, saveSession]

theorem hna_players (s : MPState) (data : NewHostMsg) (now : Int) :
    ∀ e ∈ (handleNewHostAnnouncement s data now).1.players,
      e.2.isHost = decide (e.1 = data.newHostId) := by
  unfold handleNewHostAnnouncement
  cases hg : data.gameState <;> cases hp : data.playerOrder <;>
    · simp only [saveSession]
      intro e he
      simp only [List.mem_map] at he
      obtain ⟨e0, _, he0⟩ := he
      rw [← he0]

/-- Claim C2: processing a new_host_announcement leaves the receiver a
non host whose hostId is the announced id, replaces its playerOrder with
the announced order, marks exactly the announced id as host in its
registry, and hence no two receivers of the same last announcement both
believe they are host. -/
theorem newHostAnnouncement_correct (s : MPState) (data : NewHostMsg)
    (now : Int) :
    (handleNewHostAnnouncement s data now).1.isHost = false
    ∧ (handleNewHostAnnouncement s data now).1.hostId = some data.newHostId
    ∧ (∀ jo, data.playerOrder = some jo →
        (handleNewHostAnnouncement s data now).1.playerOrder = jo)
    ∧ (∀ e ∈ (handleNewHostAnnouncement s data now).1.players,
        e.2.isHost = decide (e.1 = data.newHostId))
    ∧ (∀ (t : MPState) (now2 : Int),
        ¬((handleNewHostAnnouncement s data now).1.isHost = true ∧
          (handleNewHostAnnouncement t data now2).1.isHost = true)) := by
  refine ⟨hna_isHost s data now, hna_hostId s data now,
    fun jo h => hna_playerOrder s data now jo h, hna_players s data now,
    ?_⟩
  rintro t now2 ⟨h1, _⟩
  rw [hna_isHost] at h1
  exact Bool.false_ne_true h1

/-- Witness: P2 processing the announcement of P1 adopts the announced
order. -/
theorem newHostAnnouncement_correct_witness :
    (handleNewHostAnnouncement stateClientP2 annP1 5).1.playerOrder =
      ["H", "P1", "P2"] :=
  (newHostAnnouncement_correct stateClientP2 annP1 5).2.2.1 _ rfl

/-- Claim C6: the per viewer filter preserves every snapshot field except
the players array, whose entries keep their public fields; in non
terminal phases every other player has its hole cards replaced by face
down placeholders of the same count, in the results phase everything is
revealed, and the viewer always keeps its own cards. -/
theorem filterState_correct (gs : GameState) (viewerId : PlayerId) :
    (filterStateForPlayer gs viewerId).phase = gs.phase
    ∧ (filterStateForPlayer gs viewerId).baseBet = gs.baseBet
    ∧ (filterStateForPlayer gs viewerId).totalPot = gs.totalPot
    ∧ (filterStateForPlayer gs viewerId).players.length = gs.players.length
    ∧ (gs.phase = "results" →
        (filterStateForPlayer gs viewerId).players = gs.players)
    ∧ List.Forall₂ (fun p q =>
        q.id = p.id ∧ q.pnl = p.pnl ∧ q.currentBet = p.currentBet
        ∧ q.hasActed = p.hasActed
        ∧ (p.id = viewerId → q = p)
        ∧ (p.id ≠ viewerId → gs.phase ≠ "results" →
            q.holeCards =
              List.replicate p.holeCards.length CardView.faceDown))
      gs.players (filterStateForPlayer gs viewerId).players := by
  refine ⟨rfl, rfl, rfl, by simp [filterStateForPlayer], ?_, ?_⟩
  · intro hres
    simp [filterStateForPlayer, hres]
  · show List.Forall₂ _ gs.players (gs.players.map _)
    rw [List.forall₂_map_right_iff]
    rw [List.forall₂_same]
    intro p hp
    by_cases hcond : p.id ≠ viewerId ∧ gs.phase ≠ "results"
    · rw [if_pos hcond]
      refine ⟨rfl, rfl, rfl, rfl, fun hid => absurd hid hcond.1, ?_⟩
      intro _ _
      exact map_const_faceDown p.holeCards
    · rw [if_neg hcond]
      refine ⟨rfl, rfl, rfl, rfl, fun _ => rfl, ?_⟩
      intro hne hph
      exact absurd ⟨hne, hph⟩ hcond

/-- A demo snapshot in the terminal phase. -/
theorem filterState_correct_witness :
    (filterStateForPlayer { gsDemo with phase := "results" } "H").players =
      ({ gsDemo with phase := "results" } : GameState).players :=
  (filterState_correct { gsDemo with phase := "results" } "H").2.2.2.2.1 rfl

/-- Claim C7: a save followed by a load inside the one hour window yields
the saved record with storage intact; an absent cell loads as null with
storage still empty; an expired record loads as null and is cleared. -/
theorem session_roundtrip (s : MPState) (tSave tLoad : Int)
    (h : tLoad - tSave ≤ 60 * 60 * 1000) :
    loadSession ((saveSession s tSave).session) tLoad =
      (some { peerId := s.myId, roomCode := s.roomCode,
              playerName := s.myName, isHost := s.isHost,
              gameInProgress := s.gameInProgress, timestamp := tSave },
       (saveSession s tSave).session)
    ∧ (∀ t : Int, loadSession none t = (none, none))
    ∧ (∀ (sess : Session) (t : Int), t - sess.timestamp > 60 * 60 * 1000 →
        loadSession (some (StoredSession.valid sess)) t = (none, none)) := by
  refine ⟨?_, fun t => rfl, fun sess t ht => ?_⟩
  · show loadSession (some (StoredSession.valid _)) tLoad = _
    rw [loadSession, if_neg (not_lt.mpr h)]
    rfl
  · rw [loadSession, if_pos ht]

/-- Witness for the round trip at concrete times inside the window. -/
theorem session_roundtrip_witness :
    loadSession ((saveSession stateHostBase 1000).session) 2000 =
      (some { peerId := "H", roomCode := "ABCDE", playerName := "Alice",
              isHost := true, gameInProgress := false, timestamp := 1000 },
       (saveSession stateHostBase 1000).session) :=
  (session_roundtrip stateHostBase 1000 2000 (by decide)).1

/-- Claim C10: a stored string that JSON.parse rejects loads as null and
clears the cell, exactly like an expired record; loadSession is a total
function of the cell content, so it never throws. -/
theorem loadSession_malformed_safe (raw : String) (now : Int) :
    loadSession (some (StoredSession.malformed raw)) now = (none, none) :=
  rfl

/-! ## Send and broadcast lemmas -/

theorem sendToPeer_of_mem (s : MPState) (p : PlayerId) (m : Msg)
    (h : p ∈ s.connections) : sendToPeer s p m = [Effect.send p m] := by
  rw [sendToPeer, if_pos h]

theorem mem_sendToPeer (s : MPState) (p : PlayerId) (m : Msg) (e : Effect)
    (h : e ∈ sendToPeer s p m) : e = Effect.send p m := by
  rw [sendToPeer] at h
  split at h
  · exact List.mem_singleton.mp h
  · simp at h

theorem mem_broadcast (s : MPState) (m : Msg) (f p : PlayerId)
    (hp : p ∈ s.connections) (hne : p ≠ f) :
    Effect.send p m ∈ broadcast s m (some f) := by
  rw [broadcast]
  exact List.mem_map.mpr ⟨p, List.mem_filter.mpr ⟨hp, by simp [hne]⟩, rfl⟩

theorem mem_broadcast_elim (s : MPState) (m : Msg) (ex : Option PlayerId)
    (e : Effect) (h : e ∈ broadcast s m ex) : ∃ q, e = Effect.send q m := by
  rw [broadcast] at h
  obtain ⟨q, _, hq⟩ := List.mem_map.mp h
  exact ⟨q, hq.symm⟩

/-! ## Backup adoption lemmas -/

theorem adoptBackup_players (s : MPState) (d : JoinMsg) :
    (adoptBackup s d).1.players = s.players := by
  unfold adoptBackup
  cases d.reconnecting <;> cases d.gameStateBackup <;>
    cases s.lastFullGameState <;> cases d.playerOrder <;>
    first | rfl | (dsimp only; split <;> rfl)

theorem adoptBackup_disc (s : MPState) (d : JoinMsg) :
    (adoptBackup s d).1.disconnectedPlayers = s.disconnectedPlayers := by
  unfold adoptBackup
  cases d.reconnecting <;> cases d.gameStateBackup <;>
    cases s.lastFullGameState <;> cases d.playerOrder <;>
    first | rfl | (dsimp only; split <;> rfl)

theorem adoptBackup_connections (s : MPState) (d : JoinMsg) :
    (adoptBackup s d).1.connections = s.connections := by
  unfold adoptBackup
  cases d.reconnecting <;> cases d.gameStateBackup <;>
    cases s.lastFullGameState <;> cases d.playerOrder <;>
    first | rfl | (dsimp only; split <;> rfl)

theorem adoptBackup_myId (s : MPState) (d : JoinMsg) :
    (adoptBackup s d).1.myId = s.myId := by
  unfold adoptBackup
  cases d.reconnecting <;> cases d.gameStateBackup <;>
    cases s.lastFullGameState <;> cases d.playerOrder <;>
    first | rfl | (dsimp only; split <;> rfl)

theorem adoptBackup_roomCode (s : MPState) (d : JoinMsg) :
    (adoptBackup s d).1.roomCode = s.roomCode := by
  unfold adoptBackup
  cases d.reconnecting <;> cases d.gameStateBackup <;>
    cases s.lastFullGameState <;> cases d.playerOrder <;>
    first | rfl | (dsimp only; split <;> rfl)

theorem adoptBackup_hostId (s : MPState) (d : JoinMsg) :
    (adoptBackup s d).1.hostId = s.hostId := by
  unfold adoptBackup
  cases d.reconnecting <;> cases d.gameStateBackup <;>
    cases s.lastFullGameState <;> cases d.playerOrder <;>
    first | rfl | (dsimp only; split <;> rfl)

theorem adoptBackup_order (s : MPState) (d : JoinMsg) :
    (adoptBackup s d).1.playerOrder = s.playerOrder ∨
    ∃ po, (adoptBackup s d).1.playerOrder = mergeHostFirst s.myId po := by
  unfold adoptBackup
  cases d.reconnecting <;> cases d.gameStateBackup <;>
    cases s.lastFullGameState <;> cases d.playerOrder <;>
    first
      | exact Or.inl rfl
      | (dsimp only
         split <;> first | exact Or.inr ⟨_, rfl⟩ | exact Or.inl rfl)

theorem adoptBackup_effects (s : MPState) (d : JoinMsg) :
    (adoptBackup s d).2 = [] ∨
    ∃ b, (adoptBackup s d).2 = [Effect.hookBecomeHost (some b)] := by
  unfold adoptBackup
  cases d.reconnecting <;> cases d.gameStateBackup <;>
    cases s.lastFullGameState <;> cases d.playerOrder <;>
    first
      | exact Or.inl rfl
      | exact Or.inr ⟨_, rfl⟩

theorem adoptBackup_not_reconnecting (s : MPState) (d : JoinMsg)
    (h : d.reconnecting = false) : adoptBackup s d = (s, []) := by
  unfold adoptBackup
  rw [h]

theorem adoptBackup_nodup (s : MPState) (d : JoinMsg)
    (h : s.playerOrder.Nodup) : (adoptBackup s d).1.playerOrder.Nodup := by
  rcases adoptBackup_order s d with ho | ⟨po, ho⟩
  · rw [ho]; exact h
  · rw [ho]; exact mergeHostFirst_nodup _ _

theorem adoptBackup_hostAtHead (s : MPState) (d : JoinMsg)
    (hh : s.hostId = some s.myId) (h : hostAtHead s = true) :
    hostAtHead (adoptBackup s d).1 = true := by
  unfold hostAtHead at h ⊢
  rw [adoptBackup_hostId, hh] at *
  rcases adoptBackup_order s d with ho | ⟨po, ho⟩
  · rw [ho]
    exact h
  · rw [ho, mergeHostFirst_head]
    simp

/-! ## Restoration path lemmas -/

theorem restoreJoin_players (s : MPState) (f : PlayerId) (d : JoinMsg) :
    (restoreJoin s f d).1.players =
      mapSet s.players f (restoredInfo s f d) := by
  unfold restoreJoin
  dsimp only
  split <;> rfl

theorem restoreJoin_disc (s : MPState) (f : PlayerId) (d : JoinMsg) :
    (restoreJoin s f d).1.disconnectedPlayers =
      mapDelete s.disconnectedPlayers f := by
  unfold restoreJoin
  dsimp only
  split <;> rfl

theorem restoreJoin_order (s : MPState) (f : PlayerId) (d : JoinMsg) :
    (f ∈ s.playerOrder ∧
      (restoreJoin s f d).1.playerOrder = s.playerOrder) ∨
    (f ∉ s.playerOrder ∧
      (restoreJoin s f d).1.playerOrder = s.playerOrder ++ [f]) := by
  unfold restoreJoin
  dsimp only
  split
  next h => exact Or.inl ⟨h, rfl⟩
  next h => exact Or.inr ⟨h, rfl⟩

theorem restoreJoin_const (s : MPState) (f : PlayerId) (d : JoinMsg) :
    (restoreJoin s f d).1.connections = s.connections
    ∧ (restoreJoin s f d).1.roomCode = s.roomCode
    ∧ (restoreJoin s f d).1.gameInProgress = s.gameInProgress
    ∧ (restoreJoin s f d).1.hostId = s.hostId
    ∧ (restoreJoin s f d).1.myId = s.myId := by
  unfold restoreJoin
  dsimp only
  split <;> exact ⟨rfl, rfl, rfl, rfl, rfl⟩

theorem restoreJoin_effects (s : MPState) (f : PlayerId) (d : JoinMsg) :
    (restoreJoin s f d).2 =
      sendToPeer (restoreJoin s f d).1 f
        (Msg.joinAccepted f s.roomCode s.gameInProgress true)
      ++ sendToPeer (restoreJoin s f d).1 f
        (Msg.playerList (mapValues (restoreJoin s f d).1.players)
          (restoreJoin s f d).1.playerOrder)
      ++ broadcast (restoreJoin s f d).1
        (Msg.playerReconnected (restoredInfo s f d)) (some f)
      ++ [Effect.hookPlayerJoin (mapValues (restoreJoin s f d).1.players),
          Effect.hookReconnected f] := by
  unfold restoreJoin
  dsimp only
  split <;> rfl

theorem restoreJoin_mem_order (s : MPState) (f : PlayerId) (d : JoinMsg) :
    f ∈ (restoreJoin s f d).1.playerOrder := by
  rcases restoreJoin_order s f d with ⟨h1, h2⟩ | ⟨h1, h2⟩
  · rw [h2]; exact h1
  · rw [h2]; simp

theorem restoreJoin_nodup (s : MPState) (f : PlayerId) (d : JoinMsg)
    (h : s.playerOrder.Nodup) : (restoreJoin s f d).1.playerOrder.Nodup := by
  rcases restoreJoin_order s f d with ⟨h1, h2⟩ | ⟨h1, h2⟩
  · rw [h2]; exact h
  · rw [h2]; exact nodup_append_singleton h h1

/-! ## Admission path lemmas -/

theorem admitJoin_players (s : MPState) (f : PlayerId) (d : JoinMsg) :
    (admitJoin s f d).1.players =
      mapSet s.players f (admittedInfo s f d) := by
  unfold admitJoin
  dsimp only
  split <;> rfl

theorem admitJoin_disc (s : MPState) (f : PlayerId) (d : JoinMsg) :
    (admitJoin s f d).1.disconnectedPlayers = s.disconnectedPlayers := by
  unfold admitJoin
  dsimp only
  split <;> rfl

theorem admitJoin_order (s : MPState) (f : PlayerId) (d : JoinMsg) :
    (f ∈ s.playerOrder ∧
      (admitJoin s f d).1.playerOrder = s.playerOrder) ∨
    (f ∉ s.playerOrder ∧
      (admitJoin s f d).1.playerOrder = s.playerOrder ++ [f]) := by
  unfold admitJoin
  dsimp only
  split
  next h => exact Or.inl ⟨h, rfl⟩
  next h => exact Or.inr ⟨h, rfl⟩

theorem admitJoin_const (s : MPState) (f : PlayerId) (d : JoinMsg) :
    (admitJoin s f d).1.connections = s.connections
    ∧ (admitJoin s f d).1.roomCode = s.roomCode
    ∧ (admitJoin s f d).1.gameInProgress = s.gameInProgress
    ∧ (admitJoin s f d).1.hostId = s.hostId
    ∧ (admitJoin s f d).1.myId = s.myId := by
  unfold admitJoin
  dsimp only
  split <;> exact ⟨rfl, rfl, rfl, rfl, rfl⟩

theorem admitJoin_effects (s : MPState) (f : PlayerId) (d : JoinMsg) :
    (admitJoin s f d).2 =
      sendToPeer (admitJoin s f d).1 f
        (Msg.joinAccepted f s.roomCode s.gameInProgress false)
      ++ sendToPeer (admitJoin s f d).1 f
        (Msg.playerList (mapValues (admitJoin s f d).1.players)
          (admitJoin s f d).1.playerOrder)
      ++ broadcast (admitJoin s f d).1
        (Msg.playerJoined (admittedInfo s f d)
          (admitJoin s f d).1.playerOrder) (some f)
      ++ [Effect.hookPlayerJoin (mapValues (admitJoin s f d).1.players)]
      ++ (if s.gameInProgress then
            [Effect.hookJoinIntent f d.name] else []) := by
  unfold admitJoin
  dsimp only
  split <;> rfl

theorem admitJoin_nodup (s : MPState) (f : PlayerId) (d : JoinMsg)
    (h : s.playerOrder.Nodup) : (admitJoin s f d).1.playerOrder.Nodup := by
  rcases admitJoin_order s f d with ⟨h1, h2⟩ | ⟨h1, h2⟩
  · rw [h2]; exact h
  · rw [h2]; exact nodup_append_singleton h h1

/-! ## Branch selection of handleJoinRequest -/

theorem handleJoinRequest_restore (s : MPState) (f : PlayerId) (d : JoinMsg)
    (hr : d.reconnecting = true ∨ mapHas s.disconnectedPlayers f = true) :
    handleJoinRequest s f d =
      ((restoreJoin (adoptBackup s d).1 f d).1,
       (adoptBackup s d).2 ++ (restoreJoin (adoptBackup s d).1 f d).2) := by
  have hcond :
      (d.reconnecting ||
        mapHas (adoptBackup s d).1.disconnectedPlayers f) = true := by
    rw [adoptBackup_disc]
    rcases hr with h | h
    · rw [h]; rfl
    · rw [h, Bool.or_true]
  simp only [handleJoinRequest]
  rw [hcond]
  rfl

theorem handleJoinRequest_full (s : MPState) (f : PlayerId) (d : JoinMsg)
    (hnr : d.reconnecting = false)
    (hnd : mapHas s.disconnectedPlayers f = false)
    (hsize : 10 ≤ mapSize s.players) :
    handleJoinRequest s f d =
      (s, sendToPeer s f (Msg.errorMsg "Room is full (max 10 players)")) := by
  simp only [handleJoinRequest]
  rw [adoptBackup_not_reconnecting s d hnr]
  simp only [hnr, hnd, Bool.or_false]
  rw [if_neg (by simp), if_pos hsize]
  rfl

theorem handleJoinRequest_admit (s : MPState) (f : PlayerId) (d : JoinMsg)
    (hnr : d.reconnecting = false)
    (hnd : mapHas s.disconnectedPlayers f = false)
    (hsize : mapSize s.players < 10) :
    handleJoinRequest s f d = admitJoin s f d := by
  simp only [handleJoinRequest]
  rw [adoptBackup_not_reconnecting s d hnr]
  simp only [hnr, hnd, Bool.or_false]
  rw [if_neg (by simp), if_neg (not_le.mpr hsize)]
  rfl

theorem restoredInfo_congr (s t : MPState) (f : PlayerId) (d : JoinMsg)
    (h : s.disconnectedPlayers = t.disconnectedPlayers) :
    restoredInfo s f d = restoredInfo t f d := by
  unfold restoredInfo restoredName
  rw [h]

theorem restoreJoin_sends_accept (s : MPState) (f : PlayerId) (d : JoinMsg)
    (hconn : f ∈ s.connections) :
    Effect.send f (Msg.joinAccepted f s.roomCode s.gameInProgress true)
      ∈ (restoreJoin s f d).2 := by
  rw [restoreJoin_effects]
  apply List.mem_append_left
  apply List.mem_append_left
  apply List.mem_append_left
  rw [sendToPeer_of_mem]
  · exact List.mem_singleton.mpr rfl
  · rw [(restoreJoin_const s f d).1]
    exact hconn

theorem restoreJoin_sends_recon (s : MPState) (f : PlayerId) (d : JoinMsg)
    (p : PlayerId) (hp : p ∈ s.connections) (hne : p ≠ f) :
    Effect.send p (Msg.playerReconnected (restoredInfo s f d))
      ∈ (restoreJoin s f d).2 := by
  rw [restoreJoin_effects]
  apply List.mem_append_left
  apply List.mem_append_right
  exact mem_broadcast _ _ f p
    (by rw [(restoreJoin_const s f d).1]; exact hp) hne

theorem restoreJoin_no_playerJoined (s : MPState) (f : PlayerId)
    (d : JoinMsg) :
    ∀ e ∈ (restoreJoin s f d).2, isPlayerJoinedMsg e = false := by
  intro e he
  rw [restoreJoin_effects] at he
  rcases List.mem_append.mp he with he | he
  · rcases List.mem_append.mp he with he | he
    · rcases List.mem_append.mp he with he | he
      · rw [mem_sendToPeer _ _ _ _ he]; rfl
      · rw [mem_sendToPeer _ _ _ _ he]; rfl
    · obtain ⟨q, hq⟩ := mem_broadcast_elim _ _ _ _ he
      rw [hq]; rfl
  · rcases List.mem_cons.mp he with he | he
    · rw [he]; rfl
    · rw [List.mem_singleton.mp he]; rfl

/-- Claim C3 counterexample: in the demo room, P2 is in the active
registry but not in the DisconnectedCache; its join without the
reconnecting flag is handled as a fresh admission, not a restoration: the
reply lacks reconnected, no PlayerReconnected goes out, and PlayerJoined
is broadcast instead. -/
theorem joinRequest_active_registry_cex :
    mapHas stateHostBase.players "P2" = true
    ∧ mapHas stateHostBase.disconnectedPlayers "P2" = false
    ∧ (∀ e ∈ (handleJoinRequest stateHostBase "P2" plainJoin).2,
        isPlayerReconnectedMsg e = false)
    ∧ Effect.send "P2" (Msg.joinAccepted "P2" "ABCDE" false false)
        ∈ (handleJoinRequest stateHostBase "P2" plainJoin).2
    ∧ Effect.send "P1"
        (Msg.playerJoined (admittedInfo stateHostBase "P2" plainJoin)
          (handleJoinRequest stateHostBase "P2" plainJoin).1.playerOrder)
        ∈ (handleJoinRequest stateHostBase "P2" plainJoin).2 := by
  decide

/-- Claim C3 (amended): restoration triggers exactly on the reconnecting
flag or on presence in the DisconnectedCache (presence in the active
registry alone does not trigger it); when it triggers, the participant is
restored with queued false, its id is ensured to be in JoinOrder without
duplication, the reply is JoinAccepted with reconnected true, and
PlayerReconnected, never PlayerJoined, is sent to the other open
connections. -/
theorem joinRequest_restoration (s : MPState) (f : PlayerId) (d : JoinMsg)
    (hr : d.reconnecting = true ∨ mapHas s.disconnectedPlayers f = true)
    (hconn : f ∈ s.connections) :
    mapGet (handleJoinRequest s f d).1.players f =
      some (restoredInfo s f d)
    ∧ (restoredInfo s f d).queued = false
    ∧ f ∈ (handleJoinRequest s f d).1.playerOrder
    ∧ (s.playerOrder.Nodup → (handleJoinRequest s f d).1.playerOrder.Nodup)
    ∧ Effect.send f (Msg.joinAccepted f s.roomCode
        (handleJoinRequest s f d).1.gameInProgress true)
        ∈ (handleJoinRequest s f d).2
    ∧ (∀ p ∈ s.connections, p ≠ f →
        Effect.send p (Msg.playerReconnected (restoredInfo s f d))
          ∈ (handleJoinRequest s f d).2)
    ∧ (∀ e ∈ (handleJoinRequest s f d).2, isPlayerJoinedMsg e = false)
    ∧ mapGet (handleJoinRequest s f d).1.disconnectedPlayers f = none := by
  have heq := handleJoinRequest_restore s f d hr
  have hinfo : restoredInfo (adoptBackup s d).1 f d = restoredInfo s f d :=
    restoredInfo_congr _ _ f d (adoptBackup_disc s d)
  have hconn1 : f ∈ (adoptBackup s d).1.connections := by
    rw [adoptBackup_connections]; exact hconn
  refine ⟨?_, rfl, ?_, ?_, ?_, ?_, ?_, ?_⟩
  · rw [heq]
    show mapGet (restoreJoin (adoptBackup s d).1 f d).1.players f = _
    rw [restoreJoin_players, hinfo, mapGet_mapSet_self]
  · rw [heq]
    exact restoreJoin_mem_order _ f d
  · intro h
    rw [heq]
    exact restoreJoin_nodup _ f d (adoptBackup_nodup s d h)
  · have hsend := restoreJoin_sends_accept (adoptBackup s d).1 f d hconn1
    rw [adoptBackup_roomCode] at hsend
    have hgip : (restoreJoin (adoptBackup s d).1 f d).1.gameInProgress =
        (adoptBackup s d).1.gameInProgress :=
      (restoreJoin_const _ f d).2.2.1
    rw [heq]
    show Effect.send f (Msg.joinAccepted f s.roomCode
        (restoreJoin (adoptBackup s d).1 f d).1.gameInProgress true) ∈
      (adoptBackup s d).2 ++ (restoreJoin (adoptBackup s d).1 f d).2
    rw [hgip]
    exact List.mem_append_right _ hsend
  · intro p hp hne
    rw [heq]
    apply List.mem_append_right
    have := restoreJoin_sends_recon (adoptBackup s d).1 f d p
      (by rw [adoptBackup_connections]; exact hp) hne
    rw [hinfo] at this
    exact this
  · intro e he
    rw [heq] at he
    rcases List.mem_append.mp he with he | he
    · rcases adoptBackup_effects s d with ha | ⟨b, ha⟩
      · rw [ha] at he; simp at he
      · rw [ha] at he
        rw [List.mem_singleton.mp he]
        rfl
    · exact restoreJoin_no_playerJoined _ f d e he
  · rw [heq]
    show mapGet (restoreJoin (adoptBackup s d).1 f d).1.disconnectedPlayers
      f = none
    rw [restoreJoin_disc, mapGet_mapDelete_self]

/-- A reconnect join payload with no name and no backup. -/
theorem joinRequest_restoration_witness :
    mapGet (handleJoinRequest stateStaleCache "P2"
      { name := none, reconnecting := true, gameStateBackup := none,
        playerOrder := none }).1.players "P2" =
      some (restoredInfo stateStaleCache "P2"
        { name := none, reconnecting := true, gameStateBackup := none,
          playerOrder := none }) :=
  (joinRequest_restoration stateStaleCache "P2"
    { name := none, reconnecting := true, gameStateBackup := none,
      playerOrder := none } (Or.inl rfl) (by decide)).1

theorem admitJoin_sends_accept (s : MPState) (f : PlayerId) (d : JoinMsg)
    (hconn : f ∈ s.connections) :
    Effect.send f (Msg.joinAccepted f s.roomCode s.gameInProgress false)
      ∈ (admitJoin s f d).2 := by
  rw [admitJoin_effects]
  apply List.mem_append_left
  apply List.mem_append_left
  apply List.mem_append_left
  apply List.mem_append_left
  rw [sendToPeer_of_mem]
  · exact List.mem_singleton.mpr rfl
  · rw [(admitJoin_const s f d).1]
    exact hconn

theorem admitJoin_sends_playerList (s : MPState) (f : PlayerId)
    (d : JoinMsg) (hconn : f ∈ s.connections) :
    Effect.send f (Msg.playerList (mapValues (admitJoin s f d).1.players)
      (admitJoin s f d).1.playerOrder) ∈ (admitJoin s f d).2 := by
  rw [admitJoin_effects]
  apply List.mem_append_left
  apply List.mem_append_left
  apply List.mem_append_left
  apply List.mem_append_right
  rw [sendToPeer_of_mem]
  · exact List.mem_singleton.mpr rfl
  · rw [(admitJoin_const s f d).1]
    exact hconn

theorem admitJoin_sends_joined (s : MPState) (f : PlayerId) (d : JoinMsg)
    (p : PlayerId) (hp : p ∈ s.connections) (hne : p ≠ f) :
    Effect.send p (Msg.playerJoined (admittedInfo s f d)
      (admitJoin s f d).1.playerOrder) ∈ (admitJoin s f d).2 := by
  rw [admitJoin_effects]
  apply List.mem_append_left
  apply List.mem_append_left
  apply List.mem_append_right
  exact mem_broadcast _ _ f p
    (by rw [(admitJoin_const s f d).1]; exact hp) hne

theorem admitJoin_joinIntent (s : MPState) (f : PlayerId) (d : JoinMsg)
    (h : s.gameInProgress = true) :
    Effect.hookJoinIntent f d.name ∈ (admitJoin s f d).2 := by
  rw [admitJoin_effects]
  apply List.mem_append_right
  rw [h, if_pos rfl]
  exact List.mem_singleton.mpr rfl

/-- Claim C4: a non restoration join is rejected with a room full error
and no other change when ten players are active; otherwise the joiner is
admitted with queued equal to gameInProgress, appended to JoinOrder,
accepted with the gameInProgress flag, sent the player list, announced to
everyone else, and, when queued, forwarded to the game logic as a join
intent. -/
theorem joinRequest_admission (s : MPState) (f : PlayerId) (d : JoinMsg)
    (hnr : d.reconnecting = false)
    (hnd : mapHas s.disconnectedPlayers f = false)
    (hconn : f ∈ s.connections) :
    (10 ≤ mapSize s.players →
      (handleJoinRequest s f d).1 = s ∧
      (handleJoinRequest s f d).2 =
        [Effect.send f (Msg.errorMsg "Room is full (max 10 players)")])
    ∧ (mapSize s.players < 10 →
      mapGet (handleJoinRequest s f d).1.players f =
        some (admittedInfo s f d)
      ∧ (admittedInfo s f d).queued = s.gameInProgress
      ∧ (f ∉ s.playerOrder →
          (handleJoinRequest s f d).1.playerOrder = s.playerOrder ++ [f])
      ∧ Effect.send f (Msg.joinAccepted f s.roomCode s.gameInProgress false)
          ∈ (handleJoinRequest s f d).2
      ∧ Effect.send f (Msg.playerList
          (mapValues (handleJoinRequest s f d).1.players)
          (handleJoinRequest s f d).1.playerOrder)
          ∈ (handleJoinRequest s f d).2
      ∧ (∀ p ∈ s.connections, p ≠ f →
          Effect.send p (Msg.playerJoined (admittedInfo s f d)
            (handleJoinRequest s f d).1.playerOrder)
            ∈ (handleJoinRequest s f d).2)
      ∧ (s.gameInProgress = true →
          Effect.hookJoinIntent f d.name ∈ (handleJoinRequest s f d).2)) := by
  constructor
  · intro hsize
    have heq := handleJoinRequest_full s f d hnr hnd hsize
    rw [heq, sendToPeer_of_mem s f _ hconn]
    exact ⟨rfl, rfl⟩
  · intro hsize
    have heq := handleJoinRequest_admit s f d hnr hnd hsize
    refine ⟨?_, rfl, ?_, ?_, ?_, ?_, ?_⟩
    · rw [heq, admitJoin_players, mapGet_mapSet_self]
    · intro hmem
      rw [heq]
      rcases admitJoin_order s f d with ⟨h1, _⟩ | ⟨_, h2⟩
      · exact absurd h1 hmem
      · exact h2
    · rw [heq]
      exact admitJoin_sends_accept s f d hconn
    · rw [heq]
      exact admitJoin_sends_playerList s f d hconn
    · intro p hp hne
      rw [heq]
      exact admitJoin_sends_joined s f d p hp hne
    · intro hgip
      rw [heq]
      exact admitJoin_joinIntent s f d hgip

/-- Witness: P3 joins the three member demo room and is appended to the
order. -/
theorem joinRequest_admission_witness :
    (handleJoinRequest stateHostJoin "P3" plainJoin).1.playerOrder =
      stateHostJoin.playerOrder ++ ["P3"] :=
  ((joinRequest_admission stateHostJoin "P3" plainJoin rfl (by decide)
    (by decide)).2 (by decide)).2.2.1 (by decide)

/-! ## Disconnection lemmas -/

theorem handleDisconnection_order (s : MPState) (p : PlayerId) (now : Int) :
    (handleDisconnection s p now).1.playerOrder = s.playerOrder := by
  unfold handleDisconnection
  dsimp only
  cases mapGet s.players p <;> rfl

theorem handleDisconnection_hostId (s : MPState) (p : PlayerId) (now : Int) :
    (handleDisconnection s p now).1.hostId = s.hostId := by
  unfold handleDisconnection
  dsimp only
  cases mapGet s.players p <;> rfl

theorem handleDisconnection_players (s : MPState) (p : PlayerId)
    (now : Int) :
    (handleDisconnection s p now).1.players = mapDelete s.players p := by
  unfold handleDisconnection
  dsimp only
  cases mapGet s.players p <;> rfl

theorem handleDisconnection_disc (s : MPState) (p : PlayerId) (now : Int) :
    (mapGet s.players p = none ∧
      (handleDisconnection s p now).1.disconnectedPlayers =
        s.disconnectedPlayers) ∨
    (∃ pi, mapGet s.players p = some pi ∧
      (handleDisconnection s p now).1.disconnectedPlayers =
        (mapSet s.disconnectedPlayers p
          { info := pi, disconnectedAt := now }).filter (fun e =>
            decide (now - e.2.disconnectedAt ≤ 5 * 60 * 1000))) := by
  unfold handleDisconnection
  dsimp only
  cases hg : mapGet s.players p with
  | none => exact Or.inl ⟨rfl, rfl⟩
  | some pi => exact Or.inr ⟨pi, rfl, rfl⟩

/-- Claim C8 counterexample: the cache entry for P2 was written at time 0
and never purged; the join handler consults no clock, so the join of P2,
at any later wall clock time, is still treated as a restoration even
though the entry is long past the five minute grace period. -/
theorem expired_cache_still_restorable_cex :
    stateStaleCache.disconnectedPlayers =
      [("P2", { info := infoP2, disconnectedAt := 0 })]
    ∧ Effect.send "P2" (Msg.joinAccepted "P2" "ABCDE" false true)
        ∈ (handleJoinRequest stateStaleCache "P2" plainJoin).2
    ∧ mapGet (handleJoinRequest stateStaleCache "P2" plainJoin).1.players
        "P2" ≠ none := by
  decide

/-- Claim C8 (amended): expired cache entries are dropped only by the
purge loop inside handleDisconnection: after any disconnection of an
active participant, every surviving cache entry is at most five minutes
old.  Join handling never reads timestamps, so an expired entry stays
restorable until such a purge happens. -/
theorem disconnect_purges_expired (s : MPState) (p : PlayerId) (now : Int)
    (hp : mapHas s.players p = true) :
    (handleDisconnection s p now).1.disconnectedPlayers.all (fun e =>
      decide (now - e.2.disconnectedAt ≤ 5 * 60 * 1000)) = true := by
  have hex : ∃ pi, mapGet s.players p = some pi := by
    rw [mapHas, Option.isSome_iff_exists] at hp
    exact hp
  obtain ⟨pi, hpi⟩ := hex
  rcases handleDisconnection_disc s p now with ⟨hnone, _⟩ | ⟨pi', _, hd⟩
  · rw [hpi] at hnone
    exact absurd hnone (by simp)
  · rw [hd]
    rw [List.all_eq_true]
    intro e he
    exact (List.mem_filter.mp he).2

/-- Witness: disconnecting P1 at minute ten purges the stale P2 entry and
caches P1 fresh, so every surviving entry is inside the grace period. -/
theorem disconnect_purges_expired_witness :
    (handleDisconnection stateStaleCache "P1"
      600000).1.disconnectedPlayers.all (fun e =>
        decide (600000 - e.2.disconnectedAt ≤ 5 * 60 * 1000)) = true :=
  disconnect_purges_expired stateStaleCache "P1" 600000 (by decide)

/-! ## Leave lemmas -/

theorem broadcast_none (s : MPState) (m : Msg) :
    broadcast s m none = s.connections.map (fun p => Effect.send p m) := by
  rw [broadcast]
  congr 1
  rw [List.filter_eq_self]
  intro a _
  simp

/-- Claim C9 counterexample: the host of the demo room leaving sends only
the error notice, never a PlayerLeft message, and its playerOrder is left
intact with every id still present. -/
theorem leave_no_playerLeft_cex :
    (leave stateHostBase).2 =
      [Effect.send "P1" (Msg.errorMsg "Host has left the game"),
       Effect.send "P2" (Msg.errorMsg "Host has left the game")]
    ∧ (∀ e ∈ (leave stateHostBase).2, isPlayerLeftMsg e = false)
    ∧ (leave stateHostBase).1.playerOrder = ["H", "P1", "P2"] := by
  decide

/-- Claim C9 (amended): leave clears the persisted session, closes every
connection, empties the whole local registry and cache — not just the one
id — and leaves JoinOrder untouched; the only outbound traffic is the
host error notice (a leaving client sends nothing), and no PlayerLeft
message is produced.  Receiving player_left deletes that id from the
registry and fires the leave hook without a reconnect grace. -/
theorem leave_semantics (s : MPState) :
    (leave s).1.session = none
    ∧ (leave s).1.players = []
    ∧ (leave s).1.disconnectedPlayers = []
    ∧ (leave s).1.connections = []
    ∧ (leave s).1.playerOrder = s.playerOrder
    ∧ (s.isHost = true → (leave s).2 =
        s.connections.map
          (fun p => Effect.send p (Msg.errorMsg "Host has left the game")))
    ∧ (s.isHost = false → (leave s).2 = [])
    ∧ (∀ e ∈ (leave s).2, isPlayerLeftMsg e = false)
    ∧ (∀ pid, (handlePlayerLeft s pid).1.players = mapDelete s.players pid
        ∧ (handlePlayerLeft s pid).2 =
            [Effect.hookPlayerLeave pid false]) := by
  refine ⟨rfl, rfl, rfl, rfl, rfl, ?_, ?_, ?_, fun pid => ⟨rfl, rfl⟩⟩
  · intro h
    show (if s.isHost then broadcast s
      (Msg.errorMsg "Host has left the game") none else []) = _
    rw [h, if_pos rfl, broadcast_none]
  · intro h
    show (if s.isHost then broadcast s
      (Msg.errorMsg "Host has left the game") none else []) = _
    rw [h, if_neg (by simp)]
  · intro e he
    have he2 : e ∈ (if s.isHost then broadcast s
        (Msg.errorMsg "Host has left the game") none else []) := he
    split at he2
    · obtain ⟨q, hq⟩ := mem_broadcast_elim _ _ _ _ he2
      rw [hq]; rfl
    · simp at he2

/-- Witness: a non host client leaving sends nothing. -/
theorem leave_semantics_witness :
    (leave stateClientP1).2 = [] :=
  (leave_semantics stateClientP1).2.2.2.2.2.2.1 rfl

/-! ## Invariant lemmas -/

theorem mapHas_mapDelete_self {α : Type} (m : JsMap α) (k : PlayerId) :
    mapHas (mapDelete m k) k = false :=
  mapHas_false_of_get_none _ _ (mapGet_mapDelete_self m k)

theorem mapHas_mapDelete_ne {α : Type} (m : JsMap α) (k j : PlayerId)
    (h : j ≠ k) : mapHas (mapDelete m k) j = mapHas m j := by
  rw [mapHas, mapGet_mapDelete_ne _ _ _ h, mapHas]

theorem mapHas_mapSet_ne {α : Type} (m : JsMap α) (k j : PlayerId) (v : α)
    (h : j ≠ k) : mapHas (mapSet m k v) j = mapHas m j := by
  rw [mapHas, mapGet_mapSet_ne _ _ _ _ h, mapHas]

theorem activeDisjoint_eq (s : MPState) :
    activeDisjoint s = true ↔
      ∀ e ∈ s.players, mapHas s.disconnectedPlayers e.1 = false := by
  rw [activeDisjoint, List.all_eq_true]
  constructor
  · intro h e he
    have := h e he
    cases hb : mapHas s.disconnectedPlayers e.1
    · rfl
    · rw [hb] at this
      simp at this
  · intro h e he
    rw [h e he]
    rfl

theorem coreInv_eq (s : MPState) :
    coreInv s = true ↔ s.playerOrder.Nodup ∧ activeDisjoint s = true := by
  rw [coreInv, Bool.and_eq_true, decide_eq_true_eq]

theorem hostAtHead_iff (s : MPState) (h0 : PlayerId)
    (hh : s.hostId = some h0) :
    hostAtHead s = true ↔ s.playerOrder.head? = some h0 := by
  unfold hostAtHead
  rw [hh]
  simp

theorem hostAtHead_congr (s t : MPState) (h1 : s.hostId = t.hostId)
    (h2 : s.playerOrder = t.playerOrder) :
    hostAtHead s = hostAtHead t := by
  unfold hostAtHead
  rw [h1, h2]

theorem registerHost_inv (myId myName roomCode : String) (now : Int) :
    (registerHost myId myName roomCode now).playerOrder.Nodup
    ∧ activeDisjoint (registerHost myId myName roomCode now) = true
    ∧ hostAtHead (registerHost myId myName roomCode now) = true := by
  refine ⟨?_, ?_, ?_⟩
  · show ([myId] : List PlayerId).Nodup
    exact List.nodup_singleton myId
  · rw [activeDisjoint_eq]
    intro e he
    rfl
  · unfold hostAtHead
    simp [registerHost, saveSession]

theorem joinRequest_inv (s : MPState) (f : PlayerId) (d : JoinMsg)
    (hord : s.playerOrder.Nodup) (hdisj : activeDisjoint s = true)
    (hhost : s.hostId = some s.myId) :
    ((handleJoinRequest s f d).1.playerOrder.Nodup
      ∧ activeDisjoint (handleJoinRequest s f d).1 = true)
    ∧ (hostAtHead s = true →
        hostAtHead (handleJoinRequest s f d).1 = true) := by
  by_cases hres :
      d.reconnecting = true ∨ mapHas s.disconnectedPlayers f = true
  · have heq := handleJoinRequest_restore s f d hres
    have hA_players := adoptBackup_players s d
    have hA_disc := adoptBackup_disc s d
    have hA_hostId := adoptBackup_hostId s d
    refine ⟨⟨?_, ?_⟩, ?_⟩
    · rw [heq]
      exact restoreJoin_nodup _ f d (adoptBackup_nodup s d hord)
    · rw [heq]
      show activeDisjoint (restoreJoin (adoptBackup s d).1 f d).1 = true
      rw [activeDisjoint_eq]
      intro e he
      rw [restoreJoin_players] at he
      rw [restoreJoin_disc]
      rcases mem_mapSet _ _ _ _ he with he1 | hmem
      · rw [he1]
        exact mapHas_mapDelete_self _ _
      · by_cases hef : e.1 = f
        · rw [hef]
          exact mapHas_mapDelete_self _ _
        · rw [mapHas_mapDelete_ne _ _ _ hef, hA_disc]
          rw [hA_players] at hmem
          exact (activeDisjoint_eq s).mp hdisj e hmem
    · intro hH
      have hAH := adoptBackup_hostAtHead s d hhost hH
      have hA_head : (adoptBackup s d).1.playerOrder.head? = some s.myId :=
        (hostAtHead_iff _ s.myId (by rw [hA_hostId, hhost])).mp hAH
      have hA_ne : (adoptBackup s d).1.playerOrder ≠ [] := by
        intro hnil
        rw [hnil] at hA_head
        exact Option.noConfusion hA_head
      rw [heq]
      have hsid :
          (restoreJoin (adoptBackup s d).1 f d).1.hostId = some s.myId := by
        rw [(restoreJoin_const _ f d).2.2.2.1, hA_hostId, hhost]
      rw [hostAtHead_iff _ s.myId hsid]
      rcases restoreJoin_order (adoptBackup s d).1 f d with ⟨_, h2⟩ | ⟨_, h2⟩
      · rw [h2]
        exact hA_head
      · rw [h2, head?_append_singleton hA_ne]
        exact hA_head
  · have hnr : d.reconnecting = false := by
      cases hb : d.reconnecting
      · rfl
      · exact absurd (Or.inl hb) hres
    have hnd : mapHas s.disconnectedPlayers f = false := by
      cases hb : mapHas s.disconnectedPlayers f
      · rfl
      · exact absurd (Or.inr hb) hres
    by_cases hsize : 10 ≤ mapSize s.players
    · have heq := handleJoinRequest_full s f d hnr hnd hsize
      rw [heq]
      exact ⟨⟨hord, hdisj⟩, fun h => h⟩
    · have heq := handleJoinRequest_admit s f d hnr hnd (not_le.mp hsize)
      refine ⟨⟨?_, ?_⟩, ?_⟩
      · rw [heq]
        exact admitJoin_nodup s f d hord
      · rw [heq]
        rw [activeDisjoint_eq]
        intro e he
        rw [admitJoin_players] at he
        rw [admitJoin_disc]
        rcases mem_mapSet _ _ _ _ he with he1 | hmem
        · rw [he1]
          exact hnd
        · exact (activeDisjoint_eq s).mp hdisj e hmem
      · intro hH
        have hhead : s.playerOrder.head? = some s.myId :=
          (hostAtHead_iff s s.myId hhost).mp hH
        have hne : s.playerOrder ≠ [] := by
          intro hnil
          rw [hnil] at hhead
          exact Option.noConfusion hhead
        rw [heq]
        have hsid : (admitJoin s f d).1.hostId = some s.myId := by
          rw [(admitJoin_const s f d).2.2.2.1, hhost]
        rw [hostAtHead_iff _ s.myId hsid]
        rcases admitJoin_order s f d with ⟨_, h2⟩ | ⟨_, h2⟩
        · rw [h2]
          exact hhead
        · rw [h2, head?_append_singleton hne]
          exact hhead

theorem disconnection_inv (s : MPState) (p : PlayerId) (now : Int)
    (hord : s.playerOrder.Nodup) (hdisj : activeDisjoint s = true) :
    ((handleDisconnection s p now).1.playerOrder.Nodup
      ∧ activeDisjoint (handleDisconnection s p now).1 = true)
    ∧ (hostAtHead s = true →
        hostAtHead (handleDisconnection s p now).1 = true) := by
  refine ⟨⟨?_, ?_⟩, ?_⟩
  · rw [handleDisconnection_order]
    exact hord
  · rw [activeDisjoint_eq]
    intro e he
    rw [handleDisconnection_players] at he
    obtain ⟨hmem, hne⟩ := mem_mapDelete _ _ _ he
    rcases handleDisconnection_disc s p now with ⟨_, hd⟩ | ⟨pi, _, hd⟩
    · rw [hd]
      exact (activeDisjoint_eq s).mp hdisj e hmem
    · rw [hd]
      cases hb : mapHas ((mapSet s.disconnectedPlayers p
          { info := pi, disconnectedAt := now }).filter (fun e =>
            decide (now - e.2.disconnectedAt ≤ 5 * 60 * 1000))) e.1
      · rfl
      · exfalso
        have h1 := mapHas_of_filter _ _ _ hb
        rw [mapHas_mapSet_ne _ _ _ _ hne] at h1
        have h2 := (activeDisjoint_eq s).mp hdisj e hmem
        rw [h1] at h2
        exact Bool.noConfusion h2
  · intro hH
    rw [hostAtHead_congr (handleDisconnection s p now).1 s
      (handleDisconnection_hostId s p now)
      (handleDisconnection_order s p now)]
    exact hH

theorem becomeNewHost_order (s : MPState) (now : Int) :
    (becomeNewHost s now).1.playerOrder = s.playerOrder := by
  unfold becomeNewHost saveSession
  dsimp only
  cases mapGet s.players s.myId <;> rfl

theorem becomeNewHost_hostId (s : MPState) (now : Int) :
    (becomeNewHost s now).1.hostId = some s.myId := by
  unfold becomeNewHost saveSession
  dsimp only
  cases mapGet s.players s.myId <;> rfl

theorem becomeNewHost_disc (s : MPState) (now : Int) :
    (becomeNewHost s now).1.disconnectedPlayers =
      s.disconnectedPlayers := by
  unfold becomeNewHost saveSession
  dsimp only
  cases mapGet s.players s.myId <;> rfl

theorem becomeNewHost_players (s : MPState) (now : Int) :
    (becomeNewHost s now).1.players = s.players ∨
    ∃ mi, mapGet s.players s.myId = some mi ∧
      (becomeNewHost s now).1.players =
        mapSet s.players s.myId { mi with isHost := true } := by
  unfold becomeNewHost saveSession
  dsimp only
  cases hg : mapGet s.players s.myId with
  | none => exact Or.inl rfl
  | some mi => exact Or.inr ⟨mi, rfl, rfl⟩

theorem becomeNewHost_inv (s : MPState) (now : Int)
    (hord : s.playerOrder.Nodup) (hdisj : activeDisjoint s = true) :
    (becomeNewHost s now).1.playerOrder.Nodup
    ∧ activeDisjoint (becomeNewHost s now).1 = true := by
  refine ⟨by rw [becomeNewHost_order]; exact hord, ?_⟩
  rw [activeDisjoint_eq]
  intro e he
  rw [becomeNewHost_disc]
  rcases becomeNewHost_players s now with hp | ⟨mi, hmi, hp⟩
  · rw [hp] at he
    exact (activeDisjoint_eq s).mp hdisj e he
  · rw [hp] at he
    rcases mem_mapSet _ _ _ _ he with he1 | hmem
    · rw [he1]
      exact (activeDisjoint_eq s).mp hdisj (s.myId, mi)
        (mem_key_of_mapGet _ _ _ hmi)
    · exact (activeDisjoint_eq s).mp hdisj e hmem

/-- Claim C5 counterexample: from the demo client state, where every
invariant holds and H heads the order, becomeNewHost flips hostId to P1
but leaves the dead host H at index 0 of playerOrder, so the host at
index 0 invariant is not preserved by host migration. -/
theorem becomeNewHost_breaks_hostAtHead_cex :
    coreInv stateClientP1 = true
    ∧ hostAtHead stateClientP1 = true
    ∧ (becomeNewHost stateClientP1 0).1.hostId = some "P1"
    ∧ (becomeNewHost stateClientP1 0).1.playerOrder.head? = some "H"
    ∧ hostAtHead (becomeNewHost stateClientP1 0).1 = false := by
  decide

/-- Claim C5 (amended): registration, join handling (restoration and
admission) and disconnect handling preserve the duplicate free order, the
host at index 0 placement, and the active versus disconnected
disjointness; host migration (becomeNewHost) preserves the duplicate
freedom and the disjointness but leaves the previous host at index 0, so
the host at index 0 invariant holds only until a migration. -/
theorem host_ops_preserve_invariants :
    (∀ (myId myName roomCode : String) (now : Int),
      coreInv (registerHost myId myName roomCode now) = true ∧
      hostAtHead (registerHost myId myName roomCode now) = true)
    ∧ (∀ (s : MPState) (f : PlayerId) (d : JoinMsg),
        coreInv s = true → s.hostId = some s.myId →
        coreInv (handleJoinRequest s f d).1 = true ∧
        (hostAtHead s = true →
          hostAtHead (handleJoinRequest s f d).1 = true))
    ∧ (∀ (s : MPState) (p : PlayerId) (now : Int), coreInv s = true →
        coreInv (handleDisconnection s p now).1 = true ∧
        (hostAtHead s = true →
          hostAtHead (handleDisconnection s p now).1 = true))
    ∧ (∀ (s : MPState) (now : Int), coreInv s = true →
        coreInv (becomeNewHost s now).1 = true) := by
  refine ⟨?_, ?_, ?_, ?_⟩
  · intro myId myName roomCode now
    obtain ⟨h1, h2, h3⟩ := registerHost_inv myId myName roomCode now
    exact ⟨(coreInv_eq _).mpr ⟨h1, h2⟩, h3⟩
  · intro s f d hc hh
    obtain ⟨hord, hdisj⟩ := (coreInv_eq s).mp hc
    obtain ⟨⟨h1, h2⟩, h3⟩ := joinRequest_inv s f d hord hdisj hh
    exact ⟨(coreInv_eq _).mpr ⟨h1, h2⟩, h3⟩
  · intro s p now hc
    obtain ⟨hord, hdisj⟩ := (coreInv_eq s).mp hc
    obtain ⟨⟨h1, h2⟩, h3⟩ := disconnection_inv s p now hord hdisj
    exact ⟨(coreInv_eq _).mpr ⟨h1, h2⟩, h3⟩
  · intro s now hc
    obtain ⟨hord, hdisj⟩ := (coreInv_eq s).mp hc
    obtain ⟨h1, h2⟩ := becomeNewHost_inv s now hord hdisj
    exact (coreInv_eq _).mpr ⟨h1, h2⟩

/-- Witness: disconnecting P1 from the demo host state keeps the core
invariant. -/
theorem host_ops_preserve_invariants_witness :
    coreInv (handleDisconnection stateHostBase "P1" 7).1 = true :=
  (host_ops_preserve_invariants.2.2.1 stateHostBase "P1" 7 (by decide)).1

end UltimateOmaha
